import Mathlib

/-!
Verification of the DBSentinel job lifecycle engine (src/src/index.ts):
query validation, queue admission, job execution with dynamic result-table
synthesis, notification events, metadata lookup, and TTL-based cleanup.

The TypeScript source is shallowly embedded: JavaScript strings are modelled
as Lean `String` / `List Char` (ASCII semantics for `trim` / `toUpperCase`),
database and queue side effects are modelled as explicit state passing with
failure oracles standing for the outcomes of the individual `client.query`
round trips, and emitted EventEmitter events are collected in a trace list.
-/

namespace DBSentinel

/-- Model of JavaScript `String.prototype.trim` on a char list: drop leading
and trailing whitespace. -/
def jsTrim (cs : List Char) : List Char :=
  ((cs.dropWhile Char.isWhitespace).reverse.dropWhile Char.isWhitespace).reverse

/-- Model of JavaScript `String.prototype.toUpperCase` (ASCII). -/
def jsToUpper (cs : List Char) : List Char :=
  cs.map Char.toUpper

/-- `query.trim().toUpperCase()` from `validateSelectQuery` (index.ts:66). -/
def normalizeQuery (q : String) : List Char :=
  jsToUpper (jsTrim q.data)

/-- A regex word character (`\w`): letter, digit or underscore. -/
def isWordChar (c : Char) : Bool :=
  c.isAlphanum || c = '_'

/-- Case-insensitive match of `kw` at the head of `cs`, requiring a word
boundary (`\b`) right after the keyword: either end of input or a non-word
character. -/
def matchesKeywordAt : List Char → List Char → Bool
  | [], [] => true
  | [], c :: _ => !isWordChar c
  | _ :: _, [] => false
  | k :: ks, c :: cs => k.toUpper == c.toUpper && matchesKeywordAt ks cs

/-- Scan for a whole-word, case-insensitive occurrence of `kw` in the char
list; `prevIsWord` records whether the previous character was a word
character (for the leading `\b`). -/
def hasWordFrom (kw : List Char) (prevIsWord : Bool) : List Char → Bool
  | [] => false
  | c :: cs =>
    (!prevIsWord && matchesKeywordAt kw (c :: cs)) || hasWordFrom kw (isWordChar c) cs

/-- `/\b(DROP|UPDATE|DELETE|INSERT|ALTER)\b/i.test(query)` (index.ts:73-74),
applied to the original (un-normalized) query text. -/
def containsForbiddenWord (q : String) : Bool :=
  ["DROP", "UPDATE", "DELETE", "INSERT", "ALTER"].any fun kw =>
    hasWordFrom kw.data false q.data

/-- The three rejection reasons of `validateSelectQuery`, in source order:
`Only SELECT queries are allowed.`, `Semicolons are not permitted...`,
`Forbidden SQL keyword detected...`. -/
inductive ValidationError
  | notASelect
  | multiStatement
  | forbiddenKeyword
deriving DecidableEq, Repr

/-- `validateSelectQuery` (index.ts:65-77): normalize, then check the three
rules in order — must start with `SELECT ` (one literal space), must not
contain a semicolon, must not contain a forbidden keyword as a whole word. -/
def validateSelectQuery (q : String) : Except ValidationError Unit :=
  let normalized := normalizeQuery q
  if !(List.isPrefixOf "SELECT ".data normalized) then
    Except.error ValidationError.notASelect
  else if normalized.contains ';' then
    Except.error ValidationError.multiStatement
  else if containsForbiddenWord q then
    Except.error ValidationError.forbiddenKeyword
  else
    Except.ok ()

/-- Errors `createQueryJob` can raise synchronously: the queue-full admission
error (index.ts:136-138) or a validation error (index.ts:140). -/
inductive SubmitError
  | queueFull
  | validation (e : ValidationError)
deriving DecidableEq, Repr

/-- A queue entry `{ jobId, query, params }` as added at index.ts:145-146.
Parameter bind values are modelled as strings. -/
structure QueueEntry where
  jobId : String
  query : String
  params : List String
deriving DecidableEq, Repr

/-- The Bull queue's waiting list: entries admitted but not yet picked up by
a worker (`getWaitingCount` counts exactly these). -/
structure QueueState where
  waiting : List QueueEntry
deriving DecidableEq, Repr

/-- `createQueryJob` (index.ts:134-157). `freshId` stands for the
`crypto.randomUUID()` result. Order of operations as in the source:
queue-depth admission check first, then validation, then enqueue. The
enqueue itself (`queue.add`, wrapped in a try/catch in the source) is
modelled as succeeding. Returns the result together with the queue state
after the call. -/
def createQueryJob (maxQueueSize : Nat) (freshId : String)
    (query : String) (params : List String) (st : QueueState) :
    Except SubmitError String × QueueState :=
  if maxQueueSize ≤ st.waiting.length then
    (Except.error SubmitError.queueFull, st)
  else
    match validateSelectQuery query with
    | Except.error e => (Except.error (SubmitError.validation e), st)
    | Except.ok () =>
        (Except.ok freshId, ⟨st.waiting ++ [⟨freshId, query, params⟩]⟩)

/-- `mapPostgresType` (index.ts:33-59): Postgres type OID to storage column
type; the fall-through default (which includes TEXT 25 and VARCHAR 1043)
is `TEXT`. -/
def mapPostgresType (pgTypeId : Nat) : String :=
  if pgTypeId = 20 ∨ pgTypeId = 21 ∨ pgTypeId = 23 then "INTEGER"
  else if pgTypeId = 700 ∨ pgTypeId = 701 then "DOUBLE PRECISION"
  else if pgTypeId = 1700 then "NUMERIC"
  else if pgTypeId = 16 then "BOOLEAN"
  else if pgTypeId = 1082 then "DATE"
  else if pgTypeId = 1114 ∨ pgTypeId = 1184 then "TIMESTAMP"
  else if pgTypeId = 114 ∨ pgTypeId = 3802 then "JSONB"
  else "TEXT"

/-- `jobId.replace(dash-regex, underscore)` (index.ts:189): every dash in the
job id is replaced by an underscore. -/
def replaceDashes (cs : List Char) : List Char :=
  cs.map fun c => if c = '-' then '_' else c

/-- The result-table name derived in `handleJob` (index.ts:189): the fixed
namespace token `query_results_` followed by the job id with dashes
replaced by underscores. -/
def tableNameFor (jobId : String) : String :=
  ⟨"query_results_".data ++ replaceDashes jobId.data⟩

/-- Characters allowed in the body of an (unquoted) SQL identifier. -/
def isIdentChar (c : Char) : Bool :=
  c.isAlphanum || c = '_'

/-- A valid identifier: nonempty, starts with a letter or underscore, and
all remaining characters are letters, digits or underscores. -/
def validIdentifier (s : String) : Bool :=
  match s.data with
  | [] => false
  | c :: cs => (c.isAlpha || c = '_') && cs.all isIdentChar

/-- Characters that can occur in a `crypto.randomUUID()` job id: lowercase
hex digits and dashes. We only need that they are alphanumeric-or-dash
(in particular, never an underscore). -/
def isUUIDChar (c : Char) : Bool :=
  c.isAlphanum || c = '-'

/-- One row of the `job_metadata` table:
`(job_id TEXT PRIMARY KEY, table_name TEXT NOT NULL, created_at TIMESTAMP)`
(index.ts:191-197). `created_at` is a timestamp measured in hours, matching
the hour-granularity TTL arithmetic of the cleanup sweep. -/
structure MetaRow where
  job_id : String
  table_name : String
  created_at : Nat
deriving DecidableEq, Repr

/-- The database state visible to this module: the `job_metadata` rows and
the catalog of existing result tables. -/
structure DBState where
  metadata : List MetaRow
  tables : List String
deriving DecidableEq, Repr

/-- A terminal notification event emitted on the EventEmitter bus:
`job-completed:<id>` carrying `{ jobId, tableName }` (index.ts:237) or
`job-failed:<id>` carrying the error (index.ts:240). -/
inductive Event
  | completed (jobId tableName : String)
  | failed (jobId : String) (err : String)
deriving DecidableEq, Repr

/-- A probed output column: `(field.name, field.dataTypeID)` (index.ts:199-204). -/
abbrev Field := String × Nat

/-- A fetched data row, as (column name, String-coerced value or null) pairs
(index.ts:221-233). -/
abbrev Row := List (String × Option String)

/-- Outcomes of the individual database round trips `handleJob` performs,
standing for the external Postgres engine. `probe` and `dataFetch` receive
the SQL text and the positional parameter bindings actually passed to
`client.query`. -/
structure DbOracle where
  probe : String → List String → Except String (List Field)
  createMetaTable : Except String Unit
  createTable : String → Except String Unit
  insertMeta : Except String Unit
  dataFetch : String → List String → Except String (List Row)
  insertRow : Row → Except String Unit

/-- The per-row insert loop of step 5 (index.ts:221-235): stops at the first
failing insert. -/
def insertAllRows (o : DbOracle) : List Row → Except String Unit
  | [] => Except.ok ()
  | r :: rs =>
    match o.insertRow r with
    | Except.error e => Except.error e
    | Except.ok () => insertAllRows o rs

/-- The `CREATE TABLE` DDL synthesized at index.ts:199-210: quoted column
names with their mapped storage types, joined by commas, inside a
`CREATE TABLE "<tableName>" (...)` statement. -/
def createTableSqlFor (tableName : String) (fields : List Field) : String :=
  let columnsSql :=
    String.intercalate ", "
      (fields.map fun f => "\x22" ++ f.1 ++ "\x22 " ++ mapPostgresType f.2)
  "CREATE TABLE \x22" ++ tableName ++ "\x22 (" ++ columnsSql ++ ")"

/-- The observable outcome of one `handleJob` execution: the events emitted,
the database state afterwards, and the statement/bindings of the metadata
probe of step 1 (index.ts:186-187). -/
structure JobResult where
  events : List Event
  state : DBState
  probeQuery : String
  probeParams : List String
deriving Repr

/-- `handleJob` (index.ts:180-245). The steps run in source order inside one
try block: metadata probe (`query + " LIMIT 0"` with the same params),
table naming, `CREATE TABLE IF NOT EXISTS job_metadata`, result-table
creation, metadata insert, real data fetch, per-row inserts. The first
failure jumps to the catch block, which emits the failure event with the
error; state changes made before the failure persist (no transaction). -/
def handleJob (o : DbOracle) (jobId query : String) (params : List String)
    (now : Nat) (st : DBState) : JobResult :=
  let metaQuery := query ++ " LIMIT 0"
  match o.probe metaQuery params with
  | Except.error e => ⟨[Event.failed jobId e], st, metaQuery, params⟩
  | Except.ok fields =>
    let tableName := tableNameFor jobId
    match o.createMetaTable with
    | Except.error e => ⟨[Event.failed jobId e], st, metaQuery, params⟩
    | Except.ok () =>
      match o.createTable (createTableSqlFor tableName fields) with
      | Except.error e => ⟨[Event.failed jobId e], st, metaQuery, params⟩
      | Except.ok () =>
        let st1 : DBState := { st with tables := st.tables ++ [tableName] }
        match o.insertMeta with
        | Except.error e => ⟨[Event.failed jobId e], st1, metaQuery, params⟩
        | Except.ok () =>
          let st2 : DBState :=
            { st1 with metadata := st1.metadata ++ [⟨jobId, tableName, now⟩] }
          match o.dataFetch query params with
          | Except.error e => ⟨[Event.failed jobId e], st2, metaQuery, params⟩
          | Except.ok rows =>
            match insertAllRows o rows with
            | Except.error e => ⟨[Event.failed jobId e], st2, metaQuery, params⟩
            | Except.ok () =>
              ⟨[Event.completed jobId tableName], st2, metaQuery, params⟩

/-- Whether every database step of `handleJob` succeeds for this oracle,
query and bindings (i.e. the try block runs to completion). -/
def jobSucceeds (o : DbOracle) (jobId query : String) (params : List String) : Bool :=
  match o.probe (query ++ " LIMIT 0") params with
  | Except.error _ => false
  | Except.ok fields =>
    match o.createMetaTable with
    | Except.error _ => false
    | Except.ok () =>
      match o.createTable (createTableSqlFor (tableNameFor jobId) fields) with
      | Except.error _ => false
      | Except.ok () =>
        match o.insertMeta with
        | Except.error _ => false
        | Except.ok () =>
          match o.dataFetch query params with
          | Except.error _ => false
          | Except.ok rows =>
            match insertAllRows o rows with
            | Except.error _ => false
            | Except.ok () => true

/-- `getTableNameForJob` (index.ts:159-172): select the `table_name` of the
first `job_metadata` row with the given `job_id`; absent rows yield null. -/
def getTableNameForJob (st : DBState) (jobId : String) : Option String :=
  match st.metadata.find? (fun r => r.job_id == jobId) with
  | some r => some r.table_name
  | none => none

/-- Outcomes of the two per-row statements of the cleanup sweep, standing
for the external database: whether `DROP TABLE IF EXISTS "<table_name>"`
fails, and whether `DELETE FROM job_metadata WHERE job_id = $1` fails. -/
structure CleanupOracle where
  dropFails : String → Bool
  deleteFails : String → Bool

/-- The TTL selection predicate of index.ts:258-262:
`created_at < NOW() - INTERVAL '<ttl> hour'`, with times in hours. -/
def expired (now ttlHours : Nat) (r : MetaRow) : Bool :=
  r.created_at + ttlHours < now

/-- Processing of one selected row (index.ts:265-273): inside a per-row try
block, drop the table (idempotent `IF EXISTS`), then delete the metadata
row; if the drop fails the row is left untouched, if the delete fails the
table is already gone but the metadata row stays. Errors are caught and
logged, so the state after the row is always well-defined. -/
def dropRow (o : CleanupOracle) (st : DBState) (r : MetaRow) : DBState :=
  if o.dropFails r.table_name then st
  else
    let st1 : DBState := { st with tables := st.tables.filter (· ≠ r.table_name) }
    if o.deleteFails r.job_id then st1
    else { st1 with metadata := st1.metadata.filter (fun m => m.job_id ≠ r.job_id) }

/-- `cleanupOldTables` (index.ts:255-277): select the metadata rows whose
`created_at` is strictly older than the TTL, then process each selected
row in order, continuing past per-row failures. -/
def cleanupOldTables (o : CleanupOracle) (now ttlHours : Nat) (st : DBState) : DBState :=
  (st.metadata.filter (expired now ttlHours)).foldl (dropRow o) st

/-- The database state after a fully successful `handleJob` run: the result
table exists and its metadata row is registered. -/
def successState (jobId : String) (now : Nat) (st : DBState) : DBState :=
  { metadata := st.metadata ++ [⟨jobId, tableNameFor jobId, now⟩],
    tables := st.tables ++ [tableNameFor jobId] }

/-- A concrete oracle whose metadata probe fails (e.g. the query references
a nonexistent relation), used to instantiate the failure theorems. -/
def failingProbeOracle : DbOracle where
  probe := fun _ _ => Except.error "relation t does not exist"
  createMetaTable := Except.ok ()
  createTable := fun _ => Except.ok ()
  insertMeta := Except.ok ()
  dataFetch := fun _ _ => Except.ok []
  insertRow := fun _ => Except.ok ()

/-- A concrete oracle on which every database step succeeds, used to
instantiate the success theorems. -/
def succeedingOracle : DbOracle where
  probe := fun _ _ => Except.ok [("x", 23)]
  createMetaTable := Except.ok ()
  createTable := fun _ => Except.ok ()
  insertMeta := Except.ok ()
  dataFetch := fun _ _ => Except.ok [[("x", some "1")]]
  insertRow := fun _ => Except.ok ()

/-! Helper lemmas -/

theorem mem_dropWhile_of_mem {p : Char → Bool} {c : Char} :
    ∀ {l : List Char}, c ∈ l → p c = false → c ∈ l.dropWhile p := by
  intro l
  induction l with
  | nil => intro h _; cases h
  | cons a l ih =>
    intro hm hp
    by_cases ha : p a = true
    · rw [List.dropWhile_cons_of_pos ha]
      rcases List.mem_cons.mp hm with rfl | hm'
      · rw [hp] at ha; cases ha
      · exact ih hm' hp
    · rw [List.dropWhile_cons_of_neg ha]
      exact hm

theorem semicolon_mem_normalizeQuery {q : String} (h : ';' ∈ q.data) :
    ';' ∈ normalizeQuery q := by
  have hws : Char.isWhitespace ';' = false := by decide
  have h1 : ';' ∈ q.data.dropWhile Char.isWhitespace :=
    mem_dropWhile_of_mem h hws
  have h2 : ';' ∈ (q.data.dropWhile Char.isWhitespace).reverse :=
    List.mem_reverse.mpr h1
  have h3 : ';' ∈ (q.data.dropWhile Char.isWhitespace).reverse.dropWhile Char.isWhitespace :=
    mem_dropWhile_of_mem h2 hws
  have h4 : ';' ∈ jsTrim q.data := List.mem_reverse.mpr h3
  have h5 : Char.toUpper ';' ∈ jsToUpper (jsTrim q.data) :=
    List.mem_map_of_mem Char.toUpper h4
  have hup : Char.toUpper ';' = ';' := by decide
  rw [hup] at h5
  exact h5

theorem find?_eq_none_of_forall {l : List MetaRow} {j : String}
    (h : ∀ r ∈ l, r.job_id ≠ j) :
    l.find? (fun r => r.job_id == j) = none := by
  induction l with
  | nil => rfl
  | cons a l ih =>
    have ha : ¬ ((fun r => r.job_id == j) a = true) := by
      simp only [beq_iff_eq]
      exact h a (List.mem_cons_self a l)
    exact (List.find?_cons_of_neg l ha).trans
      (ih fun r hr => h r (List.mem_cons_of_mem a hr))

theorem replaceDashes_inj : ∀ {l1 l2 : List Char},
    (∀ c ∈ l1, c ≠ '_') → (∀ c ∈ l2, c ≠ '_') →
    replaceDashes l1 = replaceDashes l2 → l1 = l2 := by
  intro l1
  induction l1 with
  | nil =>
    intro l2 _ _ h
    cases l2 with
    | nil => rfl
    | cons b l2 => simp [replaceDashes] at h
  | cons a l1 ih =>
    intro l2 h1 h2 h
    cases l2 with
    | nil => simp [replaceDashes] at h
    | cons b l2 =>
      simp only [replaceDashes, List.map_cons, List.cons.injEq] at h
      have ha : a ≠ '_' := h1 a (List.mem_cons_self a l1)
      have hb : b ≠ '_' := h2 b (List.mem_cons_self b l2)
      have hab : a = b := by
        by_cases hda : a = '-' <;> by_cases hdb : b = '-' <;>
          simp [hda, hdb] at h ⊢
        · exact absurd h.1.symm hb
        · exact absurd h.1 ha
        · exact h.1
      refine congrArg₂ List.cons hab ?_
      exact ih (fun c hc => h1 c (List.mem_cons_of_mem a hc))
        (fun c hc => h2 c (List.mem_cons_of_mem b hc)) h.2

theorem uuidChar_ne_underscore {c : Char} (h : isUUIDChar c = true) : c ≠ '_' := by
  intro hc
  subst hc
  simp [isUUIDChar] at h

theorem replaceDashes_identChars {l : List Char}
    (h : ∀ c ∈ l, isUUIDChar c = true) :
    (replaceDashes l).all isIdentChar = true := by
  rw [List.all_eq_true]
  intro x hx
  rcases List.mem_map.mp hx with ⟨c, hc, rfl⟩
  have huc := h c hc
  by_cases hd : c = '-'
  · simp [hd, isIdentChar]
  · simp only [if_neg hd]
    simp only [isUUIDChar, Bool.or_eq_true] at huc
    rcases huc with huc | huc
    · simp [isIdentChar, huc]
    · exact absurd (by simpa using huc) hd

theorem handleJob_dichotomy (o : DbOracle) (jobId query : String)
    (params : List String) (now : Nat) (st : DBState) :
    (jobSucceeds o jobId query params = true ∧
      handleJob o jobId query params now st =
        ⟨[Event.completed jobId (tableNameFor jobId)], successState jobId now st,
          query ++ " LIMIT 0", params⟩) ∨
    (jobSucceeds o jobId query params = false ∧
      ∃ e, (handleJob o jobId query params now st).events = [Event.failed jobId e] ∧
        ((handleJob o jobId query params now st).state = st ∨
         (handleJob o jobId query params now st).state =
           { st with tables := st.tables ++ [tableNameFor jobId] } ∨
         (handleJob o jobId query params now st).state = successState jobId now st)) := by
  simp only [handleJob, jobSucceeds, successState]
  repeat' split
  all_goals
    first
      | exact Or.inl ⟨rfl, rfl⟩
      | exact Or.inr ⟨rfl, _, rfl, Or.inl rfl⟩
      | exact Or.inr ⟨rfl, _, rfl, Or.inr (Or.inl rfl)⟩
      | exact Or.inr ⟨rfl, _, rfl, Or.inr (Or.inr rfl)⟩

theorem dropRow_metadata_subset (o : CleanupOracle) (st : DBState) (r : MetaRow) :
    (dropRow o st r).metadata ⊆ st.metadata := by
  unfold dropRow
  by_cases hd : o.dropFails r.table_name
  · simp [hd]
  · by_cases hdel : o.deleteFails r.job_id
    · simp [hd, hdel]
    · simp only [hd, hdel, Bool.false_eq_true, if_false]
      exact (List.filter_sublist st.metadata).subset

theorem dropRow_tables_subset (o : CleanupOracle) (st : DBState) (r : MetaRow) :
    (dropRow o st r).tables ⊆ st.tables := by
  unfold dropRow
  by_cases hd : o.dropFails r.table_name
  · simp [hd]
  · by_cases hdel : o.deleteFails r.job_id <;>
      simp only [hd, hdel, Bool.false_eq_true, if_false, if_true] <;>
      exact (List.filter_sublist st.tables).subset

theorem foldl_dropRow_metadata_subset (o : CleanupOracle) :
    ∀ (rows : List MetaRow) (st : DBState),
      (rows.foldl (dropRow o) st).metadata ⊆ st.metadata := by
  intro rows
  induction rows with
  | nil => intro st; exact fun _ h => h
  | cons a rows ih =>
    intro st
    exact (ih (dropRow o st a)).trans (dropRow_metadata_subset o st a)

theorem foldl_dropRow_tables_subset (o : CleanupOracle) :
    ∀ (rows : List MetaRow) (st : DBState),
      (rows.foldl (dropRow o) st).tables ⊆ st.tables := by
  intro rows
  induction rows with
  | nil => intro st; exact fun _ h => h
  | cons a rows ih =>
    intro st
    exact (ih (dropRow o st a)).trans (dropRow_tables_subset o st a)

theorem mem_metadata_foldl_dropRow (o : CleanupOracle) :
    ∀ (rows : List MetaRow) (st : DBState) (r : MetaRow),
      r ∈ st.metadata →
      (∀ r2 ∈ rows, r2.job_id = r.job_id →
        o.dropFails r2.table_name = true ∨ o.deleteFails r2.job_id = true) →
      r ∈ (rows.foldl (dropRow o) st).metadata := by
  intro rows
  induction rows with
  | nil => intro st r hm _; exact hm
  | cons a rows ih =>
    intro st r hm hcond
    refine ih (dropRow o st a) r ?_ fun r2 h2 => hcond r2 (List.mem_cons_of_mem a h2)
    unfold dropRow
    by_cases hd : o.dropFails a.table_name
    · simpa [hd] using hm
    · by_cases hdel : o.deleteFails a.job_id
      · simpa [hd, hdel] using hm
      · simp only [hd, hdel, Bool.false_eq_true, if_false]
        refine List.mem_filter.mpr ⟨hm, ?_⟩
        have hne : a.job_id ≠ r.job_id := by
          intro he
          rcases hcond a (List.mem_cons_self a rows) he with hc | hc
          · rw [hc] at hd; exact hd rfl
          · rw [hc] at hdel; exact hdel rfl
        simpa using fun he => hne he.symm

theorem mem_tables_foldl_dropRow (o : CleanupOracle) :
    ∀ (rows : List MetaRow) (st : DBState) (t : String),
      t ∈ st.tables →
      (∀ r2 ∈ rows, r2.table_name = t → o.dropFails r2.table_name = true) →
      t ∈ (rows.foldl (dropRow o) st).tables := by
  intro rows
  induction rows with
  | nil => intro st t hm _; exact hm
  | cons a rows ih =>
    intro st t hm hcond
    refine ih (dropRow o st a) t ?_ fun r2 h2 => hcond r2 (List.mem_cons_of_mem a h2)
    unfold dropRow
    by_cases hd : o.dropFails a.table_name
    · simpa [hd] using hm
    · have hne : a.table_name ≠ t := by
        intro he
        exact hd (hcond a (List.mem_cons_self a rows) he)
      by_cases hdel : o.deleteFails a.job_id <;>
        simp only [hd, hdel, Bool.false_eq_true, if_false, if_true] <;>
        exact List.mem_filter.mpr ⟨hm, by simpa using fun he => hne he.symm⟩

theorem foldl_dropRow_removes (o : CleanupOracle) :
    ∀ (rows : List MetaRow) (st : DBState) (r : MetaRow),
      r ∈ rows →
      o.dropFails r.table_name = false → o.deleteFails r.job_id = false →
      r.table_name ∉ (rows.foldl (dropRow o) st).tables ∧
      (∀ m ∈ (rows.foldl (dropRow o) st).metadata, m.job_id ≠ r.job_id) := by
  intro rows
  induction rows with
  | nil => intro st r hr; cases hr
  | cons a rows ih =>
    intro st r hr hdrop hdel
    rcases List.mem_cons.mp hr with rfl | hr
    · have h1 : r.table_name ∉ (dropRow o st r).tables := by
        unfold dropRow
        simp only [hdrop, Bool.false_eq_true, if_false, hdel]
        intro hmem
        have := (List.mem_filter.mp hmem).2
        simp at this
      have h2 : ∀ m ∈ (dropRow o st r).metadata, m.job_id ≠ r.job_id := by
        unfold dropRow
        simp only [hdrop, Bool.false_eq_true, if_false, hdel]
        intro m hmem
        have := (List.mem_filter.mp hmem).2
        simpa using this
      constructor
      · intro hmem
        exact h1 (foldl_dropRow_tables_subset o rows (dropRow o st r) hmem)
      · intro m hmem
        exact h2 m (foldl_dropRow_metadata_subset o rows (dropRow o st r) hmem)
    · exact ih (dropRow o st a) r hr hdrop hdel

/-! Claim theorems -/

/-- Claim C1, counterexample. The claim says a semicolon-containing query
always fails with the multi-statement error regardless of SELECT-ness. On
the code the SELECT check runs first (index.ts:67 before index.ts:70), so
the semicolon-containing non-SELECT query `DROP TABLE t;` is rejected with
the not-a-SELECT error instead. -/
theorem createQueryJob_semicolon_cex :
    (createQueryJob 100 "j1" "DROP TABLE t;" [] ⟨[]⟩).1 =
        Except.error (SubmitError.validation ValidationError.notASelect) ∧
      (createQueryJob 100 "j1" "DROP TABLE t;" [] ⟨[]⟩).1 ≠
        Except.error (SubmitError.validation ValidationError.multiStatement) := by
  have h1 : (createQueryJob 100 "j1" "DROP TABLE t;" [] ⟨[]⟩).1 =
      Except.error (SubmitError.validation ValidationError.notASelect) := rfl
  exact ⟨h1, by rw [h1]; simp⟩

/-- Claim C1, amended: for every query containing a semicolon, submission
(under a non-full queue) fails with a validation error and nothing is
enqueued; the error signaled is exactly the multi-statement one when the
normalized query begins with `SELECT `, and exactly the not-a-SELECT one
otherwise (the SELECT check fires first). -/
theorem createQueryJob_semicolon_rejected (maxQueueSize : Nat)
    (freshId query : String) (params : List String) (st : QueueState)
    (hq : st.waiting.length < maxQueueSize) (hsemi : ';' ∈ query.data) :
    createQueryJob maxQueueSize freshId query params st =
      (Except.error (SubmitError.validation
        (if List.isPrefixOf "SELECT ".data (normalizeQuery query) = true then
          ValidationError.multiStatement
        else ValidationError.notASelect)), st) := by
  have hnotle : ¬ (maxQueueSize ≤ st.waiting.length) := Nat.not_le.mpr hq
  have hmem : ';' ∈ normalizeQuery query := semicolon_mem_normalizeQuery hsemi
  by_cases hsel : List.isPrefixOf "SELECT ".data (normalizeQuery query) = true
  · rw [if_pos hsel]
    simp [createQueryJob, validateSelectQuery, hnotle, hsel, hmem]
  · rw [if_neg hsel]
    have hsel' := Bool.eq_false_iff.mpr hsel
    simp [createQueryJob, validateSelectQuery, hnotle, hsel']

/-- Claim C1, witness for the amended theorem, exercising both sides of the
dichotomy: a semicolon-containing SELECT query is rejected with the
multi-statement error, while a semicolon-containing non-SELECT query is
rejected with the not-a-SELECT error. -/
theorem createQueryJob_semicolon_rejected_witness :
    createQueryJob 100 "j1" "SELECT 1; SELECT 2" [] ⟨[]⟩ =
      (Except.error (SubmitError.validation ValidationError.multiStatement), ⟨[]⟩) ∧
    createQueryJob 100 "j1" "DROP TABLE u;" [] ⟨[]⟩ =
      (Except.error (SubmitError.validation ValidationError.notASelect), ⟨[]⟩) := by
  constructor
  · have h := createQueryJob_semicolon_rejected 100 "j1" "SELECT 1; SELECT 2" [] ⟨[]⟩
      (by decide) (by decide)
    rw [if_pos (by decide)] at h
    exact h
  · have h := createQueryJob_semicolon_rejected 100 "j1" "DROP TABLE u;" [] ⟨[]⟩
      (by decide) (by decide)
    rw [if_neg (by decide)] at h
    exact h

/-- Claim C3: when the count of not-yet-picked-up entries is at or above the
configured maximum, `createQueryJob` fails with the queue-full error and
the queue is unchanged — for every query, including queries that would
also fail validation, because the admission check runs before validation
(index.ts:135-138 before index.ts:140). -/
theorem createQueryJob_queueFull (maxQueueSize : Nat) (freshId query : String)
    (params : List String) (st : QueueState)
    (h : maxQueueSize ≤ st.waiting.length) :
    createQueryJob maxQueueSize freshId query params st =
      (Except.error SubmitError.queueFull, st) := by
  simp [createQueryJob, h]

/-- Claim C3, witness: a full queue of size 1 rejects even an invalid
(non-SELECT) query with the queue-full error, leaving the queue as is. -/
theorem createQueryJob_queueFull_witness :
    createQueryJob 1 "j2" "DROP TABLE t" [] ⟨[⟨"j1", "SELECT 1", []⟩]⟩ =
      (Except.error SubmitError.queueFull, ⟨[⟨"j1", "SELECT 1", []⟩]⟩) :=
  createQueryJob_queueFull 1 "j2" "DROP TABLE t" [] ⟨[⟨"j1", "SELECT 1", []⟩]⟩
    (by decide)

/-- Claim C4: under a non-full queue, any query whose trimmed, case-folded
text does not begin with `SELECT ` (the token `SELECT` followed by a
space) is rejected by `createQueryJob` with the not-a-SELECT error, and
the queue is unchanged. -/
theorem createQueryJob_notASelect (maxQueueSize : Nat) (freshId query : String)
    (params : List String) (st : QueueState)
    (hq : st.waiting.length < maxQueueSize)
    (hsel : List.isPrefixOf "SELECT ".data (normalizeQuery query) = false) :
    createQueryJob maxQueueSize freshId query params st =
      (Except.error (SubmitError.validation ValidationError.notASelect), st) := by
  have hnotle : ¬ (maxQueueSize ≤ st.waiting.length) := Nat.not_le.mpr hq
  simp [createQueryJob, validateSelectQuery, hnotle, hsel]

/-- Claim C4, witness at the concrete non-SELECT query `drop table t`. -/
theorem createQueryJob_notASelect_witness :
    createQueryJob 100 "j1" "drop table t" [] ⟨[]⟩ =
      (Except.error (SubmitError.validation ValidationError.notASelect), ⟨[]⟩) :=
  createQueryJob_notASelect 100 "j1" "drop table t" [] ⟨[]⟩ (by decide) (by decide)

/-- Claim C5: the result-table name is the fixed namespace token
`query_results_` followed by the job id with dashes replaced by
underscores; on job ids made of alphanumeric characters and dashes (as
`crypto.randomUUID()` produces), the derivation is injective — distinct
job ids always yield distinct table names — and each derived name is a
valid identifier. -/
theorem tableNameFor_spec (id1 id2 : String)
    (h1 : ∀ c ∈ id1.data, isUUIDChar c = true)
    (h2 : ∀ c ∈ id2.data, isUUIDChar c = true)
    (hne : id1 ≠ id2) :
    (tableNameFor id1).data = "query_results_".data ++ replaceDashes id1.data ∧
    tableNameFor id1 ≠ tableNameFor id2 ∧
    validIdentifier (tableNameFor id1) = true := by
  refine ⟨rfl, ?_, ?_⟩
  · intro heq
    apply hne
    have hdata : "query_results_".data ++ replaceDashes id1.data =
        "query_results_".data ++ replaceDashes id2.data := by
      have := congrArg String.data heq
      simpa [tableNameFor] using this
    have hrep := List.append_cancel_left hdata
    have hl : id1.data = id2.data :=
      replaceDashes_inj (fun c hc => uuidChar_ne_underscore (h1 c hc))
        (fun c hc => uuidChar_ne_underscore (h2 c hc)) hrep
    cases id1
    cases id2
    exact congrArg String.mk hl
  · have hq : "query_results_".data = 'q' :: "uery_results_".data := by decide
    have hsplit : tableNameFor id1 =
        ⟨'q' :: ("uery_results_".data ++ replaceDashes id1.data)⟩ := by
      simp only [tableNameFor, hq, List.cons_append]
    have hrest : ("uery_results_".data ++ replaceDashes id1.data).all isIdentChar = true := by
      rw [List.all_append]
      refine Bool.and_eq_true_iff.mpr ⟨by decide, replaceDashes_identChars h1⟩
    rw [hsplit]
    show (('q'.isAlpha || ('q' = '_' : Bool)) &&
        ("uery_results_".data ++ replaceDashes id1.data).all isIdentChar) = true
    rw [hrest]
    decide

/-- Claim C5, witness: two concrete distinct UUID-shaped ids derive
distinct, valid table names. -/
theorem tableNameFor_spec_witness :
    (tableNameFor "a1-b2").data = "query_results_".data ++ replaceDashes "a1-b2".data ∧
    tableNameFor "a1-b2" ≠ tableNameFor "a1-c3" ∧
    validIdentifier (tableNameFor "a1-b2") = true :=
  tableNameFor_spec "a1-b2" "a1-c3" (by decide) (by decide) (by decide)

/-- Claim C6: `mapPostgresType` is a pure total function on type OIDs.
Integer family (BIGINT 20, SMALLINT 21, INTEGER 23) maps to `INTEGER`;
floating-point family (REAL 700, DOUBLE PRECISION 701) to the
double-precision storage type (rendered `DOUBLE PRECISION`); NUMERIC 1700
to `NUMERIC`; BOOLEAN 16 to `BOOLEAN`; DATE 1082 to `DATE`; timestamps
without/with time zone (1114, 1184) to `TIMESTAMP`; JSON 114 and
JSONB 3802 to `JSONB`; every other id — including the string types
TEXT 25 and VARCHAR 1043 — falls back to `TEXT`. -/
theorem mapPostgresType_spec :
    (mapPostgresType 20 = "INTEGER" ∧ mapPostgresType 21 = "INTEGER" ∧
      mapPostgresType 23 = "INTEGER" ∧
      mapPostgresType 700 = "DOUBLE PRECISION" ∧
      mapPostgresType 701 = "DOUBLE PRECISION" ∧
      mapPostgresType 1700 = "NUMERIC" ∧ mapPostgresType 16 = "BOOLEAN" ∧
      mapPostgresType 1082 = "DATE" ∧ mapPostgresType 1114 = "TIMESTAMP" ∧
      mapPostgresType 1184 = "TIMESTAMP" ∧ mapPostgresType 114 = "JSONB" ∧
      mapPostgresType 3802 = "JSONB") ∧
    (∀ n : Nat,
      n ∉ ([20, 21, 23, 700, 701, 1700, 16, 1082, 1114, 1184, 114, 3802] : List Nat) →
      mapPostgresType n = "TEXT") := by
  refine ⟨by decide, fun n hn => ?_⟩
  simp only [List.mem_cons, List.not_mem_nil, or_false, not_or] at hn
  obtain ⟨h1, h2, h3, h4, h5, h6, h7, h8, h9, h10, h11, h12⟩ := hn
  simp [mapPostgresType, h1, h2, h3, h4, h5, h6, h7, h8, h9, h10, h11, h12]

/-- Claim C6, witness: the string type TEXT (OID 25) falls into the default
branch. -/
theorem mapPostgresType_spec_witness : mapPostgresType 25 = "TEXT" :=
  mapPostgresType_spec.2 25 (by decide)

/-- Claim C7: every `handleJob` execution raises exactly one terminal
notification: either the completion event carrying the job id and the
derived table name, or the failure event carrying the job id and the
error — never both and never more than one. -/
theorem handleJob_exactly_one_event (o : DbOracle) (jobId query : String)
    (params : List String) (now : Nat) (st : DBState) :
    (handleJob o jobId query params now st).events.length = 1 ∧
    ((handleJob o jobId query params now st).events =
        [Event.completed jobId (tableNameFor jobId)] ∨
      ∃ e, (handleJob o jobId query params now st).events = [Event.failed jobId e]) := by
  rcases handleJob_dichotomy o jobId query params now st with ⟨_, heq⟩ | ⟨_, e, hev, _⟩
  · rw [heq]; exact ⟨rfl, Or.inl rfl⟩
  · rw [hev]; exact ⟨rfl, Or.inr ⟨e, rfl⟩⟩

/-- Claim C2: when any database step of a job fails, `handleJob` raises
exactly one notification — the failure event carrying the job id and the
error, never a completion event — and no metadata row for that job id
referencing a nonexistent table is left behind: any metadata row for the
job id in the post state names a table present in the catalog. (The row
is only inserted after its table was created, and neither is rolled
back.) The job id is fresh: no metadata row for it exists beforehand. -/
theorem handleJob_failure_no_orphan (o : DbOracle) (jobId query : String)
    (params : List String) (now : Nat) (st : DBState)
    (hfresh : ∀ r ∈ st.metadata, r.job_id ≠ jobId)
    (hfail : jobSucceeds o jobId query params = false) :
    (∃ e, (handleJob o jobId query params now st).events = [Event.failed jobId e]) ∧
    (∀ tn, Event.completed jobId tn ∉ (handleJob o jobId query params now st).events) ∧
    (∀ r ∈ (handleJob o jobId query params now st).state.metadata,
      r.job_id = jobId →
        r.table_name ∈ (handleJob o jobId query params now st).state.tables) := by
  rcases handleJob_dichotomy o jobId query params now st with ⟨hs, _⟩ | ⟨_, e, hev, hstate⟩
  · rw [hs] at hfail; cases hfail
  · refine ⟨⟨e, hev⟩, ?_, ?_⟩
    · intro tn hmem
      rw [hev] at hmem
      simp at hmem
    · rcases hstate with h | h | h <;> rw [h]
      · exact fun r hr hid => absurd hid (hfresh r hr)
      · exact fun r hr hid => absurd hid (hfresh r hr)
      · intro r hr hid
        simp only [successState, List.mem_append] at hr ⊢
        rcases hr with hr | hr
        · exact absurd hid (hfresh r hr)
        · simp only [List.mem_singleton] at hr
          subst hr
          exact Or.inr (List.mem_singleton.mpr rfl)

/-- Claim C2, witness: a job whose metadata probe fails raises exactly the
failure notification and leaves no orphaned metadata row. -/
theorem handleJob_failure_no_orphan_witness :
    (∃ e, (handleJob failingProbeOracle "ab-1" "SELECT a FROM t" [] 5 ⟨[], []⟩).events =
        [Event.failed "ab-1" e]) ∧
    (∀ tn, Event.completed "ab-1" tn ∉
        (handleJob failingProbeOracle "ab-1" "SELECT a FROM t" [] 5 ⟨[], []⟩).events) ∧
    (∀ r ∈ (handleJob failingProbeOracle "ab-1" "SELECT a FROM t" [] 5 ⟨[], []⟩).state.metadata,
      r.job_id = "ab-1" →
        r.table_name ∈
          (handleJob failingProbeOracle "ab-1" "SELECT a FROM t" [] 5 ⟨[], []⟩).state.tables) :=
  handleJob_failure_no_orphan failingProbeOracle "ab-1" "SELECT a FROM t" [] 5 ⟨[], []⟩
    (by simp) rfl

/-- Claim C8: after a successful job, `getTableNameForJob` returns exactly
the table name carried in that job's completion event; and for a job id
with no metadata row it returns `none` (absent), never an error. -/
theorem getTableNameForJob_spec (o : DbOracle) (jobId query : String)
    (params : List String) (now : Nat) (st : DBState)
    (hfresh : ∀ r ∈ st.metadata, r.job_id ≠ jobId)
    (hsucc : jobSucceeds o jobId query params = true) :
    ((handleJob o jobId query params now st).events =
        [Event.completed jobId (tableNameFor jobId)] ∧
      getTableNameForJob (handleJob o jobId query params now st).state jobId =
        some (tableNameFor jobId)) ∧
    (∀ (st2 : DBState) (j : String), (∀ r ∈ st2.metadata, r.job_id ≠ j) →
      getTableNameForJob st2 j = none) := by
  refine ⟨?_, fun st2 j h => ?_⟩
  · rcases handleJob_dichotomy o jobId query params now st with ⟨_, heq⟩ | ⟨hf, _⟩
    · rw [heq]
      refine ⟨rfl, ?_⟩
      simp only [getTableNameForJob, successState]
      rw [List.find?_append, find?_eq_none_of_forall hfresh]
      simp
    · rw [hf] at hsucc; cases hsucc
  · simp only [getTableNameForJob]
    rw [find?_eq_none_of_forall h]

/-- Claim C8, witness: a concrete successful job registers and returns the
derived table name; a fresh state returns absent for an unknown id. -/
theorem getTableNameForJob_spec_witness :
    (((handleJob succeedingOracle "ab-1" "SELECT x FROM t" [] 5 ⟨[], []⟩).events =
        [Event.completed "ab-1" (tableNameFor "ab-1")] ∧
      getTableNameForJob (handleJob succeedingOracle "ab-1" "SELECT x FROM t" [] 5 ⟨[], []⟩).state
          "ab-1" =
        some (tableNameFor "ab-1")) ∧
    (∀ (st2 : DBState) (j : String), (∀ r ∈ st2.metadata, r.job_id ≠ j) →
      getTableNameForJob st2 j = none)) :=
  getTableNameForJob_spec succeedingOracle "ab-1" "SELECT x FROM t" [] 5 ⟨[], []⟩
    (by simp) rfl

/-- Claim C9: a cleanup sweep works on exactly the metadata rows whose
`created_at` is older than the TTL (the filter inside
`cleanupOldTables`). Given that job ids and table names are unique across
metadata rows: (i) every not-yet-expired row survives the sweep with its
table untouched; (ii) every expired row whose drop and delete both
succeed loses its table and its metadata row — independently of failures
on other rows, so one row's failure never prevents the rest of the sweep
(and the sweep itself always runs to completion, never stopping the
timer); (iii) an expired row whose table drop fails is left in place
(logged and skipped), with its table still present. -/
theorem cleanupOldTables_spec (o : CleanupOracle) (now ttl : Nat) (st : DBState)
    (hids : st.metadata.Pairwise (fun r1 r2 => r1.job_id ≠ r2.job_id))
    (hnames : st.metadata.Pairwise (fun r1 r2 => r1.table_name ≠ r2.table_name)) :
    (∀ r ∈ st.metadata, expired now ttl r = false →
        r ∈ (cleanupOldTables o now ttl st).metadata ∧
        (r.table_name ∈ st.tables →
          r.table_name ∈ (cleanupOldTables o now ttl st).tables)) ∧
    (∀ r ∈ st.metadata, expired now ttl r = true →
        o.dropFails r.table_name = false → o.deleteFails r.job_id = false →
        r.table_name ∉ (cleanupOldTables o now ttl st).tables ∧
        (∀ m ∈ (cleanupOldTables o now ttl st).metadata, m.job_id ≠ r.job_id)) ∧
    (∀ r ∈ st.metadata, expired now ttl r = true →
        o.dropFails r.table_name = true →
        r ∈ (cleanupOldTables o now ttl st).metadata ∧
        (r.table_name ∈ st.tables →
          r.table_name ∈ (cleanupOldTables o now ttl st).tables)) := by
  have hsymI : Symmetric (fun r1 r2 : MetaRow => r1.job_id ≠ r2.job_id) :=
    fun _ _ h => fun he => h he.symm
  have hsymN : Symmetric (fun r1 r2 : MetaRow => r1.table_name ≠ r2.table_name) :=
    fun _ _ h => fun he => h he.symm
  have hself : ∀ {r r2 : MetaRow}, r ∈ st.metadata → r2 ∈ st.metadata →
      r2.job_id = r.job_id → r2 = r := by
    intro r r2 hr hr2 hid
    by_contra hne
    exact hids.forall hsymI hr2 hr hne hid
  refine ⟨fun r hr hexp => ?_, fun r hr hexp hdrop hdel => ?_, fun r hr hexp hdrop => ?_⟩
  · constructor
    · refine mem_metadata_foldl_dropRow o _ st r hr fun r2 h2 hid => ?_
      have hr2 := List.mem_filter.mp h2
      have : r2 = r := hself hr hr2.1 hid
      rw [this] at hr2
      rw [hexp] at hr2
      cases hr2.2
    · intro ht
      refine mem_tables_foldl_dropRow o _ st r.table_name ht fun r2 h2 htn => ?_
      have hr2 := List.mem_filter.mp h2
      by_cases hne : r2 = r
      · rw [hne] at hr2; rw [hexp] at hr2; cases hr2.2
      · exact absurd htn (hnames.forall hsymN hr2.1 hr hne)
  · exact foldl_dropRow_removes o _ st r (List.mem_filter.mpr ⟨hr, hexp⟩) hdrop hdel
  · constructor
    · refine mem_metadata_foldl_dropRow o _ st r hr fun r2 h2 hid => ?_
      have hr2 := List.mem_filter.mp h2
      rw [hself hr hr2.1 hid]
      exact Or.inl hdrop
    · intro ht
      refine mem_tables_foldl_dropRow o _ st r.table_name ht fun r2 h2 htn => ?_
      have hr2 := List.mem_filter.mp h2
      by_cases hne : r2 = r
      · rw [hne]; exact hdrop
      · exact absurd htn (hnames.forall hsymN hr2.1 hr hne)

/-- Claim C9, witness state: two expired rows (`a` at hour 0 whose drop will
fail, `b` at hour 1 that cleans up) and one fresh row (`c` at hour 100),
swept at hour 50 with a 10 hour TTL. -/
def cleanupWitnessState : DBState :=
  ⟨[⟨"a", "ta", 0⟩, ⟨"b", "tb", 1⟩, ⟨"c", "tc", 100⟩], ["ta", "tb", "tc"]⟩

/-- Claim C9, witness oracle: dropping table `ta` fails, everything else
succeeds. -/
def cleanupWitnessOracle : CleanupOracle where
  dropFails := fun t => t == "ta"
  deleteFails := fun _ => false

/-- Claim C9, witness: on the concrete sweep, the cleaned expired row `b`
loses table and metadata, the fresh row `c` survives with its table, and
the failed row `a` is skipped with table and metadata intact. -/
theorem cleanupOldTables_spec_witness :
    "tb" ∉ (cleanupOldTables cleanupWitnessOracle 50 10 cleanupWitnessState).tables ∧
    (⟨"c", "tc", 100⟩ : MetaRow) ∈
      (cleanupOldTables cleanupWitnessOracle 50 10 cleanupWitnessState).metadata ∧
    "tc" ∈ (cleanupOldTables cleanupWitnessOracle 50 10 cleanupWitnessState).tables ∧
    (⟨"a", "ta", 0⟩ : MetaRow) ∈
      (cleanupOldTables cleanupWitnessOracle 50 10 cleanupWitnessState).metadata ∧
    "ta" ∈ (cleanupOldTables cleanupWitnessOracle 50 10 cleanupWitnessState).tables := by
  have h := cleanupOldTables_spec cleanupWitnessOracle 50 10 cleanupWitnessState
    (by decide) (by decide)
  have hb := h.2.1 ⟨"b", "tb", 1⟩ (by decide) (by decide) (by decide) (by decide)
  have hc := h.1 ⟨"c", "tc", 100⟩ (by decide) (by decide)
  have ha := h.2.2 ⟨"a", "ta", 0⟩ (by decide) (by decide) (by decide)
  exact ⟨hb.1, hc.1, hc.2 (by decide), ha.1, ha.2 (by decide)⟩

/-- Claim C10: the metadata-probe statement of step 1 is exactly the
submitted query text with the literal suffix ` LIMIT 0` appended and is
executed with the job's own parameter bindings (index.ts:186-187). -/
theorem handleJob_probe_statement (o : DbOracle) (jobId query : String)
    (params : List String) (now : Nat) (st : DBState) :
    (handleJob o jobId query params now st).probeQuery = query ++ " LIMIT 0" ∧
    (handleJob o jobId query params now st).probeParams = params := by
  simp only [handleJob]
  repeat' split
  all_goals exact ⟨rfl, rfl⟩

end DBSentinel
